import Mathlib

/-!
Verification development for the `phantom820/streams` Go library.

The repository contains several generations of the same stream API.  The
embeddings below mirror, generation by generation, the code cited by the
claims:

* `streams` namespace — the root-package generation: the `operator[T]`
  constructors of the operator file (`filter`, `uniformMap`, `peek`,
  `limit`, `skip`, `distinct`), the terminal helpers of
  `terminal_operator.go` (`applyOperations`, `subIntervals`, `collect`,
  `count`, `reduce`, `parallelCount`, `parallelReduce`) and the
  `stream[T]` lifecycle of `stream.go` (`new`, `Filter`, `Map`, `Limit`,
  `Skip`, `Distinct`, `Peek`, `Parallelize`, `Reduce`, ...).
* `operator` namespace — the `operator` package
  (`IntermediateOperator[T]`, `Filter`, `Distinct`, `Limit`, `Skip`,
  `Peek`, `Map`, `commutative`, `Sort`).
* `seqstream` namespace — `sequential_stream.go`
  (`sequentialStream[T]`: lifecycle flags, `valid`, the intermediate and
  terminal operations).
* `concstream` namespace — the `concurrentStream[T]` validation paths.
* `streams3` namespace — the constructor file with
  `ConcurrentFromSlice` / `ConcurrentFromCollection`.

Go slices become `List`, Go `int` becomes `Int` where a negative value is
observable (operator counts) and `Nat` where it is an index or a length.
Mutable operator closures become operator values carrying their state,
threaded explicitly through the element loop.  A Go method that mutates
its receiver is a Lean function returning the updated receiver; a Go
`panic(err)` is `Except.error`.
-/

set_option autoImplicit false

/-- Error codes of `errors.go` / `error.go`:
`StreamTerminated = 1`, `IllegalArgument = 2`, `StreamClosed = 3`,
`IllegalConfig = 4`. -/
inductive StreamErr : Type where
  | streamTerminated
  | illegalArgument
  | streamClosed
  | illegalConfig
deriving DecidableEq, Repr

/-- The stable integer code carried by each `streamError` value. -/
def StreamErr.code : StreamErr → Nat
  | .streamTerminated => 1
  | .illegalArgument => 2
  | .streamClosed => 3
  | .illegalConfig => 4

namespace streams

/-- The `operator[T]` values of the root generation, with each closure's
private mutable state (a counter, or the `map[string]struct{}` membership
set keyed by `hash`) stored in the constructor.  `distinct` keeps the
`alreadyDistinct` short-circuit flag of its Go constructor; the
`multipleRoutineAccess` flag of the Go constructors only selects a
mutex-guarded variant of the same per-element logic, so it has no
counterpart here.  The key type `κ` stands for Go's `string` hash keys. -/
inductive Op (α κ : Type) : Type where
  | filter (p : α → Bool)
  | uniformMap (f : α → α)
  | peek
  | limit (n : Int) (counter : Int)
  | skip (n : Int) (counter : Int)
  | distinct (alreadyDistinct : Bool) (hash : α → κ) (seen : List κ)

variable {α κ : Type} [DecidableEq κ]

/-- One `apply` call of an operator: the updated operator state, the
produced element and the keep flag. -/
def Op.apply : Op α κ → α → Op α κ × α × Bool
  | .filter p, x => (.filter p, x, p x)
  | .uniformMap f, x => (.uniformMap f, f x, true)
  | .peek, x => (.peek, x, true)
  | .limit n counter, x =>
      if counter ≥ n then (.limit n counter, x, false)
      else (.limit n (counter + 1), x, true)
  | .skip n counter, x =>
      if counter < n then (.skip n (counter + 1), x, false)
      else (.skip n counter, x, true)
  | .distinct ad hash seen, x =>
      if ad then (.distinct ad hash seen, x, true)
      else if hash x ∈ seen then (.distinct ad hash seen, x, false)
      else (.distinct ad hash (hash x :: seen), x, true)

/-- `applyOperations` of `terminal_operator.go`: the short-circuiting left
fold of the operators over one element; an operator that reports
`keep = false` stops the chain, so later operators keep their state. -/
def applyOperations : List (Op α κ) → α → List (Op α κ) × α × Bool
  | [], x => ([], x, true)
  | op :: ops, x =>
      let r := op.apply x
      if r.2.2 then
        let rest := applyOperations ops r.2.1
        (r.1 :: rest.1, rest.2.1, rest.2.2)
      else
        (r.1 :: ops, r.2.1, false)

/-- `collect` of `terminal_operator.go`: append every surviving element,
in encounter order; the final operator states are returned as well. -/
def collect : List α → List (Op α κ) → List (Op α κ) × List α
  | [], ops => (ops, [])
  | d :: ds, ops =>
      let r := applyOperations ops d
      let rest := collect ds r.1
      if r.2.2 then (rest.1, r.2.1 :: rest.2) else rest

/-- `count` of `terminal_operator.go`. -/
def count : List α → List (Op α κ) → List (Op α κ) × Nat
  | [], ops => (ops, 0)
  | d :: ds, ops =>
      let r := applyOperations ops d
      let rest := count ds r.1
      if r.2.2 then (rest.1, rest.2 + 1) else rest

/-- The indexed loop of `reduce` in `terminal_operator.go`.  The
accumulator is initialised with the first surviving element only when it
comes from index `0` of the data; otherwise the fold starts from the
zero value `x` and `valid` is never set. -/
def reduceLoop [Inhabited α] (f : α → α → α) :
    List α → Nat → List (Op α κ) → α → Bool → List (Op α κ) × α × Bool
  | [], _, ops, x, valid => (ops, x, valid)
  | d :: ds, i, ops, x, valid =>
      let r := applyOperations ops d
      if i = 0 ∧ r.2.2 then reduceLoop f ds (i + 1) r.1 r.2.1 true
      else if r.2.2 then reduceLoop f ds (i + 1) r.1 (f x r.2.1) valid
      else reduceLoop f ds (i + 1) r.1 x valid

/-- `reduce` of `terminal_operator.go` (`var x T` is the zero value,
modelled by `default`). -/
def reduce [Inhabited α] (data : List α) (ops : List (Op α κ))
    (f : α → α → α) : List (Op α κ) × α × Bool :=
  reduceLoop f data 0 ops default false

/-- `subIntervals` of `terminal_operator.go`: boundaries `i * (n / m)` for
`i < m`, then `n`; empty for `n = 0`. -/
def subIntervals (n m : Nat) : List Nat :=
  if n = 0 then []
  else ((List.range m).map (fun i => i * (n / m))) ++ [n]

/-- The partition slices `data[b i : b (i+1)]` taken by the parallel
terminal operations, one per consecutive boundary pair. -/
def partitionsOf (data : List α) : List Nat → List (List α)
  | a :: b :: rest => (data.drop a).take (b - a) :: partitionsOf data (b :: rest)
  | _ => []

/-- `parallelCount` of `terminal_operator.go`: one worker per partition
counts its slice and the partial counts are summed.  The workers share
the operator closures; they are modelled here scheduled one after the
other in partition order (each apply call is a guarded critical section
in the Go code, so this is one admissible interleaving). -/
def parallelCount (data : List α) (ops : List (Op α κ)) (maxRoutines : Nat) :
    Nat :=
  let parts := partitionsOf data (subIntervals data.length maxRoutines)
  (parts.foldl
    (fun acc part =>
      let r := count part acc.1
      (r.1, acc.2 + r.2))
    (ops, 0)).2

/-- `parallelReduce` of `terminal_operator.go`: every worker runs
`reduce` on its partition through the shared operator closures, the
gathered partial results are discarded, and the function returns
`reduce(data, operations, f)` over the whole data with the operator
state the workers left behind.  Workers are modelled scheduled one after
the other in partition order. -/
def parallelReduce [Inhabited α] (data : List α) (ops : List (Op α κ))
    (f : α → α → α) (maxRoutines : Nat) : List (Op α κ) × α × Bool :=
  let parts := partitionsOf data (subIntervals data.length maxRoutines)
  let opsAfter := parts.foldl (fun acc part => (reduce part acc f).1) ops
  reduce data opsAfter f

end streams

namespace operator

/-- The operator names of the `operator` package constants. -/
inductive OpName : Type where
  | filter
  | limit
  | skip
  | distinct
  | peek
  | map
deriving DecidableEq, Repr

/-- The `IntermediateOperator[T]` values produced by the constructors of
the `operator` package, with each constructor's private mutable state
(counters, the `hashset` of wrapper entries) stored inline.  `Distinct`
keeps its `alreadyDistinct` flag; the `Concurrent*` constructors only
wrap the same per-element logic in a mutex, so they share these
representations. -/
inductive IOp (α : Type) : Type where
  | filter (p : α → Bool)
  | distinct (alreadyDistinct : Bool) (eq : α → α → Bool) (hashCode : α → Int)
      (seen : List α)
  | limit (n : Int) (counter : Int)
  | skip (n : Int) (counter : Int)
  | peek
  | map (f : α → α)

variable {α : Type}

/-- The `name` field set by each constructor. -/
def IOp.name : IOp α → OpName
  | .filter _ => .filter
  | .distinct _ _ _ _ => .distinct
  | .limit _ _ => .limit
  | .skip _ _ => .skip
  | .peek => .peek
  | .map _ => .map

/-- The `cost` field: `filterCost = 1`, `distinct_cost = 2`; the other
constructors leave `cost` at Go's zero value `0`. -/
def IOp.cost : IOp α → Nat
  | .filter _ => 1
  | .distinct _ _ _ _ => 2
  | _ => 0

/-- Membership test of the `hashset` of wrapper entries used by
`Distinct`.  Modelled from the spec: `Distinct(equals, hashCode)`
"maintains a set of wrapper records keyed by the caller-supplied
equality/hash pair" (the `hashset` itself lives in the external
`collections` library): an element is contained when some stored record
has the same hash code and is `equals` to it. -/
def setContains (eq : α → α → Bool) (hashCode : α → Int) (seen : List α)
    (x : α) : Bool :=
  seen.any (fun y => hashCode y == hashCode x && eq x y)

/-- One `Apply` call of an intermediate operator. -/
def IOp.apply : IOp α → α → IOp α × α × Bool
  | .filter p, x => (.filter p, x, p x)
  | .distinct ad eq hashCode seen, x =>
      if ad then (.distinct ad eq hashCode seen, x, true)
      else if setContains eq hashCode seen x then
        (.distinct ad eq hashCode seen, x, false)
      else (.distinct ad eq hashCode (x :: seen), x, true)
  | .limit n counter, x =>
      if counter < n then (.limit n (counter + 1), x, true)
      else (.limit n counter, x, false)
  | .skip n counter, x =>
      if counter < n then (.skip n (counter + 1), x, false)
      else (.skip n counter, x, true)
  | .peek, x => (.peek, x, true)
  | .map f, x => (.map f, f x, true)

/-- `commutative` of the `operator` package: only the unordered pair
`{filter, distinct}` commutes. -/
def commutative (a b : IOp α) : Bool :=
  match a.name with
  | .filter => b.name == .distinct
  | .distinct => b.name == .filter
  | _ => false

/-- Whether `commutative(operators[i], operators[i+1])` holds in the
original operator list. -/
def commAt (orig : List (IOp α)) (i : Nat) : Bool :=
  match orig.drop i with
  | a :: b :: _ => commutative a b
  | _ => false

/-- Stable insertion of an operator into a cost-sorted list: it lands
after every operator of smaller or equal cost. -/
def insertLE (x : IOp α) : List (IOp α) → List (IOp α)
  | [] => [x]
  | y :: ys => if y.cost ≤ x.cost then y :: insertLE x ys else x :: y :: ys

/-- Stable ascending sort by `cost`, modelling `sort.SliceStable`. -/
def stableSortByCost (l : List (IOp α)) : List (IOp α) :=
  l.foldl (fun acc x => insertLE x acc) []

/-- In-place stable sort of the segment `[s, e]` of the working copy,
modelling `sort.SliceStable(sortedOperators[start:end+1], ...)`. -/
def sortSlice (l : List (IOp α)) (s e : Nat) : List (IOp α) :=
  l.take s ++ stableSortByCost ((l.drop s).take (e + 1 - s)) ++ l.drop (e + 1)

/-- The index loop of `Sort`: `start`/`end` track the current run of
adjacent commuting operators of the ORIGINAL list; a run is flushed by
stable-sorting that segment of the working copy. -/
def sortAux (orig : List (IOp α)) :
    List Nat → Int → Int → List (IOp α) → Int × Int × List (IOp α)
  | [], s, e, cur => (s, e, cur)
  | i :: rest, s, e, cur =>
      if commAt orig i then
        sortAux orig rest (if s = -1 then (i : Int) else s) ((i : Int) + 1) cur
      else if e > s then
        sortAux orig rest (-1) (-1) (sortSlice cur s.toNat e.toNat)
      else
        sortAux orig rest s e cur

/-- `Sort` of the `operator` package (`Sort` is a Lean keyword, hence the
name `SortOperators`): scan indices `0 .. len-2`, flush
each ended run, and flush the final run after the loop. -/
def SortOperators (ops : List (IOp α)) : List (IOp α) :=
  let r := sortAux ops (List.range (ops.length - 1)) (-1) (-1) ops
  if r.2.1 > r.1 ∧ r.1 ≥ 0 then sortSlice r.2.2 r.1.toNat r.2.1.toNat else r.2.2

/-- Short-circuiting application of a pipeline of intermediate operators
to one element.  Modelled from the spec: the pipeline helpers invoked by
the `sequentialStream` terminal operations are not part of the provided
sources; per the spec a pipeline is "applied as a short-circuiting left
fold — the first operator reporting `keep=false` stops evaluation for
that element" (this is also literally `applyOperations` of
`terminal_operator.go`). -/
def applyPipeline : List (IOp α) → α → List (IOp α) × α × Bool
  | [], x => ([], x, true)
  | op :: ops, x =>
      let r := op.apply x
      if r.2.2 then
        let rest := applyPipeline ops r.2.1
        (r.1 :: rest.1, rest.2.1, rest.2.2)
      else
        (r.1 :: ops, r.2.1, false)

/-- Survivors of a pipeline over a data slice, in encounter order.
Modelled from the spec: the `collect`/`forEach` helpers of the
`sequentialStream` generation append every surviving element in source
encounter order. -/
def collectPipeline : List α → List (IOp α) → List (IOp α) × List α
  | [], ops => (ops, [])
  | d :: ds, ops =>
      let r := applyPipeline ops d
      let rest := collectPipeline ds r.1
      if r.2.2 then (rest.1, r.2.1 :: rest.2) else rest

end operator

namespace streams

/-- The `stream[T]` struct of `stream.go` (root generation).  The
`supplier func() []T` is modelled by the slice it returns. -/
structure GoStream (α κ : Type) : Type where
  supplier : List α
  operations : List (Op α κ)
  parallel : Bool := false
  maxRoutines : Int := 0
  distinct : Bool := false
  terminated : Bool := false
  closed : Bool := false

variable {α κ : Type} [DecidableEq κ]

/-- `stream.valid`: `Terminated` is checked before `Closed`. -/
def GoStream.valid (s : GoStream α κ) : Option StreamErr :=
  if s.terminated then some .streamTerminated
  else if s.closed then some .streamClosed
  else none

/-- The package-private `new` of `stream.go`: closes the receiver
(`defer s.close()`) and builds the child stream with the appended
operator.  The first component is the mutated receiver, the second the
child. -/
def new (s : GoStream α κ) (op : Op α κ) : GoStream α κ × GoStream α κ :=
  ({ s with closed := true },
   { supplier := s.supplier
     operations := s.operations ++ [op]
     parallel := s.parallel
     maxRoutines := s.maxRoutines
     distinct := s.distinct })

/-- `stream.Filter`. -/
def GoStream.Filter (s : GoStream α κ) (f : α → Bool) :
    Except StreamErr (GoStream α κ × GoStream α κ) :=
  match s.valid with
  | some e => .error e
  | none => .ok (new s (.filter f))

/-- `stream.Map`. -/
def GoStream.Map (s : GoStream α κ) (f : α → α) :
    Except StreamErr (GoStream α κ × GoStream α κ) :=
  match s.valid with
  | some e => .error e
  | none => .ok (new s (.uniformMap f))

/-- `stream.Limit`: rejects a negative count with `IllegalArgument`
(after the validity check). -/
def GoStream.Limit (s : GoStream α κ) (n : Int) :
    Except StreamErr (GoStream α κ × GoStream α κ) :=
  match s.valid with
  | some e => .error e
  | none =>
      if n < 0 then .error .illegalArgument
      else .ok (new s (.limit n 0))

/-- `stream.Skip`: performs only the validity check — unlike
`stream.Limit` there is no `n < 0` test in `stream.go`. -/
def GoStream.Skip (s : GoStream α κ) (n : Int) :
    Except StreamErr (GoStream α κ × GoStream α κ) :=
  match s.valid with
  | some e => .error e
  | none => .ok (new s (.skip n 0))

/-- `stream.Distinct`: appends `distinct(s.parallel, s.distinct, hash)`
and then sets the child's `distinct` flag. -/
def GoStream.Distinct (s : GoStream α κ) (hash : α → κ) :
    Except StreamErr (GoStream α κ × GoStream α κ) :=
  match s.valid with
  | some e => .error e
  | none =>
      let r := new s (.distinct s.distinct hash [])
      .ok (r.1, { r.2 with distinct := true })

/-- `stream.Peek`. -/
def GoStream.Peek (s : GoStream α κ) :
    Except StreamErr (GoStream α κ × GoStream α κ) :=
  match s.valid with
  | some e => .error e
  | none => .ok (new s .peek)

/-- `stream.Parallelize`: panics with `IllegalConfig` when `n <= 1`;
otherwise returns a new parallel stream over the same supplier and
operations.  It performs no validity check, does not close the receiver
(first component returned unchanged) and does not copy the `distinct`
flag. -/
def GoStream.Parallelize (s : GoStream α κ) (n : Int) :
    Except StreamErr (GoStream α κ × GoStream α κ) :=
  if n ≤ 1 then .error .illegalConfig
  else
    .ok (s,
      { supplier := s.supplier
        operations := s.operations
        parallel := true
        maxRoutines := n })

/-- `stream.Count`: terminates the stream and dispatches on `parallel`. -/
def GoStream.Count (s : GoStream α κ) :
    Except StreamErr (GoStream α κ × Nat) :=
  match s.valid with
  | some e => .error e
  | none =>
      let res :=
        if s.parallel then parallelCount s.supplier s.operations s.maxRoutines.toNat
        else (count s.supplier s.operations).2
      .ok ({ s with terminated := true, closed := true }, res)

/-- `stream.Reduce`: terminates the stream, dispatches on `parallel` and
discards the validity flag of the underlying `reduce`. -/
def GoStream.Reduce [Inhabited α] (s : GoStream α κ) (f : α → α → α) :
    Except StreamErr (GoStream α κ × α) :=
  match s.valid with
  | some e => .error e
  | none =>
      let res :=
        if s.parallel then
          (parallelReduce s.supplier s.operations f s.maxRoutines.toNat).2.1
        else (reduce s.supplier s.operations f).2.1
      .ok ({ s with terminated := true, closed := true }, res)

end streams

namespace seqstream

open operator

/-- The `sequentialStream[T]` struct of `sequential_stream.go`; the
`data func() []T` callback is modelled by the slice it returns. -/
structure SeqStream (α : Type) : Type where
  data : List α
  intermediateOperators : List (IOp α)
  terminated : Bool := false
  closed : Bool := false
  distinct : Bool := false

variable {α : Type}

/-- `sequentialStream.close`: marks the stream closed and nils the
operator slice. -/
def SeqStream.close (s : SeqStream α) : SeqStream α :=
  { s with closed := true, intermediateOperators := [] }

/-- `sequentialStream.terminate`. -/
def SeqStream.terminate (s : SeqStream α) : SeqStream α :=
  { s with terminated := true, closed := true, intermediateOperators := [] }

/-- `sequentialStream.valid`: `Terminated` is checked before `Closed`. -/
def SeqStream.valid (s : SeqStream α) : Option StreamErr :=
  if s.terminated then some .streamTerminated
  else if s.closed then some .streamClosed
  else none

/-- A derived child stream: same data callback, the parent's operators
plus one more, and the given `distinct` flag. -/
def SeqStream.child (s : SeqStream α) (op : IOp α) (distinct : Bool) :
    SeqStream α :=
  { data := s.data
    intermediateOperators := s.intermediateOperators ++ [op]
    distinct := distinct }

/-- `sequentialStream.Filter`: validity check, then `defer close()` on
the receiver and a child with `operator.Filter(f)` appended.  The first
component is the mutated receiver, the second the child. -/
def SeqStream.Filter (s : SeqStream α) (f : α → Bool) :
    Except StreamErr (SeqStream α × SeqStream α) :=
  match s.valid with
  | some e => .error e
  | none => .ok (s.close, s.child (.filter f) s.distinct)

/-- `sequentialStream.Limit`: fails with `IllegalArgument` on a negative
limit (after the validity check). -/
def SeqStream.Limit (s : SeqStream α) (limit : Int) :
    Except StreamErr (SeqStream α × SeqStream α) :=
  match s.valid with
  | some e => .error e
  | none =>
      if limit < 0 then .error .illegalArgument
      else .ok (s.close, s.child (.limit limit 0) s.distinct)

/-- `sequentialStream.Skip`: fails with `IllegalArgument` on a negative
count (after the validity check). -/
def SeqStream.Skip (s : SeqStream α) (n : Int) :
    Except StreamErr (SeqStream α × SeqStream α) :=
  match s.valid with
  | some e => .error e
  | none =>
      if n < 0 then .error .illegalArgument
      else .ok (s.close, s.child (.skip n 0) s.distinct)

/-- `sequentialStream.Peek`. -/
def SeqStream.Peek (s : SeqStream α) :
    Except StreamErr (SeqStream α × SeqStream α) :=
  match s.valid with
  | some e => .error e
  | none => .ok (s.close, s.child .peek s.distinct)

/-- `sequentialStream.Map`: the child's `distinct` flag is cleared. -/
def SeqStream.Map (s : SeqStream α) (f : α → α) :
    Except StreamErr (SeqStream α × SeqStream α) :=
  match s.valid with
  | some e => .error e
  | none => .ok (s.close, s.child (.map f) false)

/-- `sequentialStream.Distinct`: appends
`operator.Distinct(alreadyDistinct, equals, hashCode)` and sets the
child's `distinct` flag. -/
def SeqStream.Distinct (s : SeqStream α) (eq : α → α → Bool)
    (hashCode : α → Int) : Except StreamErr (SeqStream α × SeqStream α) :=
  match s.valid with
  | some e => .error e
  | none => .ok (s.close, s.child (.distinct s.distinct eq hashCode []) true)

/-- Left fold of the survivors with at-least-one-survivor flag.
Modelled from the spec: the `reduce` helper called by
`sequentialStream.Reduce` is not part of the provided sources; per the
spec, `Reduce(binaryOp)` is a "left fold over survivors in encounter
order; requires ≥1 survivor, else returns (undefined, false)". -/
def reducePipeline [Inhabited α] (f : α → α → α) (data : List α)
    (ops : List (IOp α)) : α × Bool :=
  match (collectPipeline data ops).2 with
  | [] => (default, false)
  | x :: xs => (xs.foldl f x, true)

/-- `sequentialStream.ForEach`: terminates the stream; the survivors the
action is invoked on (through `operator.Sort` of the pipeline) are
returned in order. -/
def SeqStream.ForEach (s : SeqStream α) :
    Except StreamErr (SeqStream α × List α) :=
  match s.valid with
  | some e => .error e
  | none =>
      .ok (s.terminate,
        (collectPipeline s.data (SortOperators s.intermediateOperators)).2)

/-- `sequentialStream.Count`. -/
def SeqStream.Count (s : SeqStream α) :
    Except StreamErr (SeqStream α × Nat) :=
  match s.valid with
  | some e => .error e
  | none =>
      .ok (s.terminate,
        (collectPipeline s.data (SortOperators s.intermediateOperators)).2.length)

/-- `sequentialStream.Reduce`. -/
def SeqStream.Reduce [Inhabited α] (s : SeqStream α) (f : α → α → α) :
    Except StreamErr (SeqStream α × (α × Bool)) :=
  match s.valid with
  | some e => .error e
  | none =>
      .ok (s.terminate,
        reducePipeline f s.data (SortOperators s.intermediateOperators))

/-- `sequentialStream.Collect`. -/
def SeqStream.Collect (s : SeqStream α) :
    Except StreamErr (SeqStream α × List α) :=
  match s.valid with
  | some e => .error e
  | none =>
      .ok (s.terminate,
        (collectPipeline s.data (SortOperators s.intermediateOperators)).2)

end seqstream

namespace concstream

open operator

/-- The `concurrentStream[T]` struct of the `sequentialStream`
generation.  Its `pipeline func(input T) (T, bool)` is a nesting of
closures, one per derivation, each calling the parent pipeline first and
short-circuiting when the parent rejects; that composition is modelled
by the operator list in derivation order, applied with
`operator.applyPipeline`. -/
structure ConcStream (α : Type) : Type where
  sourceData : List α
  pipeline : List (IOp α)
  terminated : Bool := false
  closed : Bool := false
  concurrency : Int
  partitionSize : Int
  distinct : Bool := false

variable {α : Type}

/-- `concurrentStream.valid`: `Terminated` is checked before `Closed`. -/
def ConcStream.valid (s : ConcStream α) : Option StreamErr :=
  if s.terminated then some .streamTerminated
  else if s.closed then some .streamClosed
  else none

/-- `concurrentStream.Limit`: fails with `IllegalArgument` on a negative
limit (after the validity check); otherwise closes the receiver and
wraps the pipeline in the mutex-guarded limit closure. -/
def ConcStream.Limit (s : ConcStream α) (limit : Int) :
    Except StreamErr (ConcStream α × ConcStream α) :=
  match s.valid with
  | some e => .error e
  | none =>
      if limit < 0 then .error .illegalArgument
      else
        .ok ({ s with closed := true },
          { s with pipeline := s.pipeline ++ [.limit limit 0] })

/-- `concurrentStream.Skip`: fails with `IllegalArgument` on a negative
count (after the validity check). -/
def ConcStream.Skip (s : ConcStream α) (n : Int) :
    Except StreamErr (ConcStream α × ConcStream α) :=
  match s.valid with
  | some e => .error e
  | none =>
      if n < 0 then .error .illegalArgument
      else
        .ok ({ s with closed := true },
          { s with pipeline := s.pipeline ++ [.skip n 0] })

/-- `ConcurrentFromSlice` of the constructor file: builds the stream
directly from the callback, the concurrency and the partition size —
the function body contains no validation and cannot fail. -/
def ConcurrentFromSlice (f : List α) (concurrency partitionSize : Int) :
    Except StreamErr (ConcStream α) :=
  .ok { sourceData := f
        pipeline := []
        concurrency := concurrency
        partitionSize := partitionSize }

/-- `ConcurrentFromCollection` of the constructor file: identical to
`ConcurrentFromSlice` except that the data comes from a collection
iterator (modelled by the element list); it contains no validation. -/
def ConcurrentFromCollection (collection : List α)
    (concurrency partitionSize : Int) : Except StreamErr (ConcStream α) :=
  .ok { sourceData := collection
        pipeline := []
        concurrency := concurrency
        partitionSize := partitionSize }

end concstream

/-! ### Concrete instances used by the claim theorems -/

/-- Source `[1..10]` of the spec's first scenario. -/
def exData : List Int := [1, 2, 3, 4, 5, 6, 7, 8, 9, 10]

/-- Pipeline `Filter(even) → Map(x → x²) → Limit(3)` of the spec's first
scenario, built from the root-generation operator constructors. -/
def exPipeline : List (streams.Op Int Int) :=
  [.filter (fun x => x % 2 == 0), .uniformMap (fun x => x * x), .limit 3 0]

/-- Integer addition as the reduction function of the scenario. -/
def addFn : Int → Int → Int := fun x y => x + y

/-- A `Distinct` followed by a `Filter`, with the caller-supplied
equality and hash comparing parities — a legal argument pair for
`Distinct(equals, hashCode)`. -/
def parityPipeline : List (operator.IOp Int) :=
  [.distinct false (fun x y => x % 2 == y % 2) (fun x => x % 2) [],
   .filter (fun x => x != 1)]

/-- The pipeline `Distinct → Filter → Filter` (value equality, identity
hash). -/
def dffPipeline : List (operator.IOp Int) :=
  [.distinct false (fun x y => x == y) (fun x => x) [],
   .filter (fun x => x > 0),
   .filter (fun x => x > 1)]

/-- A single root-generation `Distinct` operator with the identity hash
(a pipeline with no Limit and no Skip). -/
def distinctPipeline : List (streams.Op Int Int) :=
  [.distinct false (fun x => x) []]

/-- An open root-generation stream over the supplier `[1, 2, 3]`. -/
def openStreamEx : streams.GoStream Int Int :=
  { supplier := [1, 2, 3], operations := [] }

/-- An open `sequentialStream` over `[1, 2, 3]`. -/
def seqOpenEx : seqstream.SeqStream Int :=
  { data := [1, 2, 3], intermediateOperators := [] }

/-- A terminated `sequentialStream`. -/
def seqTermEx : seqstream.SeqStream Int :=
  { data := [1, 2, 3], intermediateOperators := [], terminated := true,
    closed := true }

/-- A closed (but not terminated) `sequentialStream`. -/
def seqClosedEx : seqstream.SeqStream Int :=
  { data := [1, 2, 3], intermediateOperators := [], closed := true }

/-- An open `concurrentStream` of the `sequentialStream` generation. -/
def concOpenEx : concstream.ConcStream Int :=
  { sourceData := [1, 2, 3], pipeline := [], concurrency := 2,
    partitionSize := 2 }

/-! ### Claim theorems -/

/-- C1 (code bug): on source `[1..10]` with pipeline
`Filter(even) → Map(x²) → Limit(3)`, the `reduce` of
`terminal_operator.go` returns value `56` but validity flag `false`,
although the three survivors `[4, 16, 36]` left-fold under `+` to `56` —
the claim (and the spec) say the flag is `true` whenever at least one
element survives.  The flag is set only when the element at index `0` of
the data survives the pipeline, which `1` does not. -/
theorem c1_reduce_validity_flag_bug :
    (streams.reduce exData exPipeline addFn).2 = (56, false) ∧
    (streams.collect exData exPipeline).2 = [4, 16, 36] ∧
    ((streams.collect exData exPipeline).2 ≠ [] ∧
      [16, 36].foldl addFn 4 = 56) :=
  ⟨rfl, rfl, by decide, rfl⟩

/-- C2 (code bug): `operator.Sort` moves the cheaper `Filter` in front of
`Distinct`, and for the caller-supplied parity `equals`/`hashCode` pair
this changes the accepted-element set: the original pipeline
`Distinct → Filter(≠1)` over `[1, 2, 3]` accepts exactly `[2]`, while the
reordered pipeline accepts `[2, 3]` — contradicting the claim (and
`Sort`'s own doc comment) that the accepted set is unchanged for any
caller-supplied functions. -/
theorem c2_sort_changes_accepted_set :
    (operator.SortOperators parityPipeline).map operator.IOp.name =
      [.filter, .distinct] ∧
    (operator.collectPipeline [1, 2, 3] parityPipeline).2 = [2] ∧
    (operator.collectPipeline [1, 2, 3]
      (operator.SortOperators parityPipeline)).2 = [2, 3] ∧
    ((3 : Int) ∈ (operator.collectPipeline [1, 2, 3]
        (operator.SortOperators parityPipeline)).2 ∧
      (3 : Int) ∉ (operator.collectPipeline [1, 2, 3] parityPipeline).2) :=
  ⟨rfl, rfl, rfl, by decide⟩

/-- C3 (code bug): `operator.Sort` is not idempotent.  On
`[Distinct, Filter, Filter]` one application yields the ordering
`[filter, distinct, filter]` (only the first two operators form a
commuting run), but sorting that output again merges all three into one
run and yields `[filter, filter, distinct]` — contradicting the spec's
requirement that re-running the optimizer on an already-sorted pipeline
is a no-op. -/
theorem c3_sort_not_idempotent :
    (operator.SortOperators dffPipeline).map operator.IOp.name =
      [.filter, .distinct, .filter] ∧
    (operator.SortOperators (operator.SortOperators dffPipeline)).map
        operator.IOp.name = [.filter, .filter, .distinct] ∧
    (operator.SortOperators (operator.SortOperators dffPipeline)).map
        operator.IOp.name ≠
      (operator.SortOperators dffPipeline).map operator.IOp.name :=
  ⟨rfl, rfl, by decide⟩

/-- C4 (code bug): for the pipeline `[Distinct]` (which contains no Limit
and no Skip) over source `[1, 2]`, the sequential `reduce` returns
`(3, true)` while `parallelReduce` with 2 routines returns `(0, false)`:
its workers feed every element through the shared `Distinct` state,
their partial results are discarded, and the final whole-data `reduce`
then rejects every element as a duplicate.  (`parallelCount` does agree
with the sequential count here, and a source of length 7 with
concurrency 3 counts to 7, as the claim's scenario states.) -/
theorem c4_parallel_reduce_disagrees :
    (streams.reduce [1, 2] distinctPipeline addFn).2 = (3, true) ∧
    (streams.parallelReduce [1, 2] distinctPipeline addFn 2).2 = (0, false) ∧
    (streams.parallelReduce [1, 2] distinctPipeline addFn 2).2.1 ≠
      (streams.reduce [1, 2] distinctPipeline addFn).2.1 ∧
    streams.parallelCount [1, 2] distinctPipeline 2 =
      (streams.count [1, 2] distinctPipeline).2 ∧
    streams.parallelCount [1, 2, 3, 4, 5, 6, 7]
      ([] : List (streams.Op Int Int)) 3 = 7 :=
  ⟨rfl, rfl, by decide, rfl, rfl⟩

/-- C6 (code bug): the `sequentialStream` and `concurrentStream`
implementations reject a negative `Limit`/`Skip` count with
`IllegalArgument`, and so does `stream.Limit` of `stream.go` — but
`stream.Skip` of `stream.go` has no negative-count check: `Skip(-1)` on
an open stream succeeds and appends a skip operator instead of failing,
contradicting the claim. -/
theorem c6_stream_skip_negative_unchecked :
    seqOpenEx.Skip (-1) = .error .illegalArgument ∧
    seqOpenEx.Limit (-1) = .error .illegalArgument ∧
    concOpenEx.Skip (-1) = .error .illegalArgument ∧
    concOpenEx.Limit (-1) = .error .illegalArgument ∧
    openStreamEx.Limit (-1) = .error .illegalArgument ∧
    (openStreamEx.Skip (-1)).map (fun r => r.2.operations.length) = .ok 1 :=
  ⟨rfl, rfl, rfl, rfl, rfl, rfl⟩

/-- C5 (confirmed): on a terminated `sequentialStream` every intermediate
and terminal operation fails with `StreamTerminated` (code 1); on a
closed but not terminated stream every operation fails with
`StreamClosed` (code 3); no operation silently succeeds on an invalid
stream.  Moreover a `Filter` call on an open stream closes the receiver,
and a second `Filter` on that same receiver fails with `StreamClosed`. -/
theorem c5_invalid_stream_operations_fail {α : Type} [Inhabited α]
    (s : seqstream.SeqStream α) (p : α → Bool) (f : α → α)
    (eqf : α → α → Bool) (hashf : α → Int) (n m : Int) (g : α → α → α) :
    (s.terminated = true →
      s.Filter p = .error .streamTerminated ∧
      s.Map f = .error .streamTerminated ∧
      s.Limit n = .error .streamTerminated ∧
      s.Skip m = .error .streamTerminated ∧
      s.Distinct eqf hashf = .error .streamTerminated ∧
      s.Peek = .error .streamTerminated ∧
      s.ForEach = .error .streamTerminated ∧
      s.Count = .error .streamTerminated ∧
      s.Reduce g = .error .streamTerminated ∧
      s.Collect = .error .streamTerminated) ∧
    (s.closed = true → s.terminated = false →
      s.Filter p = .error .streamClosed ∧
      s.Map f = .error .streamClosed ∧
      s.Limit n = .error .streamClosed ∧
      s.Skip m = .error .streamClosed ∧
      s.Distinct eqf hashf = .error .streamClosed ∧
      s.Peek = .error .streamClosed ∧
      s.ForEach = .error .streamClosed ∧
      s.Count = .error .streamClosed ∧
      s.Reduce g = .error .streamClosed ∧
      s.Collect = .error .streamClosed) ∧
    (s.terminated = false → s.closed = false →
      (s.Filter p).map (fun r => r.1.closed) = .ok true ∧
      (s.Filter p).map (fun r => r.1.Filter p) = .ok (.error .streamClosed)) ∧
    (StreamErr.code .streamTerminated = 1 ∧ StreamErr.code .streamClosed = 3) := by
  refine ⟨fun ht => ?_, fun hc ht => ?_, fun ht hc => ?_, by decide⟩
  · have hv : s.valid = some .streamTerminated := by
      simp [seqstream.SeqStream.valid, ht]
    exact ⟨by simp [seqstream.SeqStream.Filter, hv],
      by simp [seqstream.SeqStream.Map, hv],
      by simp [seqstream.SeqStream.Limit, hv],
      by simp [seqstream.SeqStream.Skip, hv],
      by simp [seqstream.SeqStream.Distinct, hv],
      by simp [seqstream.SeqStream.Peek, hv],
      by simp [seqstream.SeqStream.ForEach, hv],
      by simp [seqstream.SeqStream.Count, hv],
      by simp [seqstream.SeqStream.Reduce, hv],
      by simp [seqstream.SeqStream.Collect, hv]⟩
  · have hv : s.valid = some .streamClosed := by
      simp [seqstream.SeqStream.valid, ht, hc]
    exact ⟨by simp [seqstream.SeqStream.Filter, hv],
      by simp [seqstream.SeqStream.Map, hv],
      by simp [seqstream.SeqStream.Limit, hv],
      by simp [seqstream.SeqStream.Skip, hv],
      by simp [seqstream.SeqStream.Distinct, hv],
      by simp [seqstream.SeqStream.Peek, hv],
      by simp [seqstream.SeqStream.ForEach, hv],
      by simp [seqstream.SeqStream.Count, hv],
      by simp [seqstream.SeqStream.Reduce, hv],
      by simp [seqstream.SeqStream.Collect, hv]⟩
  · have hv : s.valid = none := by
      simp [seqstream.SeqStream.valid, ht, hc]
    constructor
    · simp [seqstream.SeqStream.Filter, hv, Except.map, seqstream.SeqStream.close]
    · simp [seqstream.SeqStream.Filter, hv, seqstream.SeqStream.valid,
        seqstream.SeqStream.close, Except.map, ht, hc]

/-- C5 witness: the three hypotheses instantiated at the concrete
terminated, closed and open streams over `[1, 2, 3]`. -/
theorem c5_invalid_stream_operations_fail_witness :
    seqTermEx.Filter (fun x => x > 0) = .error .streamTerminated ∧
    seqClosedEx.Filter (fun x => x > 0) = .error .streamClosed ∧
    (seqOpenEx.Filter (fun x => x > 0)).map (fun r => r.1.Filter (fun x => x > 0)) =
      .ok (.error .streamClosed) :=
  ⟨((c5_invalid_stream_operations_fail seqTermEx (fun x => x > 0) id
      (fun x y => x == y) (fun x => x) 0 0 addFn).1 rfl).1,
   ((c5_invalid_stream_operations_fail seqClosedEx (fun x => x > 0) id
      (fun x y => x == y) (fun x => x) 0 0 addFn).2.1 rfl rfl).1,
   ((c5_invalid_stream_operations_fail seqOpenEx (fun x => x > 0) id
      (fun x y => x == y) (fun x => x) 0 0 addFn).2.2.1 rfl rfl).2⟩

/-- C8 counterexample: `stream.Parallelize` derives a new stream over the
same supplier while leaving the receiver open — after the call the
receiver is still neither closed nor terminated, refuting the claim that
every derivation marks the parent closed. -/
theorem c8_parallelize_leaves_receiver_open :
    (openStreamEx.Parallelize 4).map
        (fun r => (r.1.closed, r.1.terminated, r.2.parallel, r.2.supplier)) =
      .ok (false, false, true, [1, 2, 3]) :=
  rfl

/-- With a `limit` operator whose counter stands at `c`, `collect` keeps
the first `(N - c)` elements of the data and rejects the rest. -/
theorem collect_limit_take {α κ : Type} [DecidableEq κ] (N : Int) :
    ∀ (data : List α) (c : Int),
      (streams.collect data ([.limit N c] : List (streams.Op α κ))).2 =
        data.take (N - c).toNat := by
  intro data
  induction data with
  | nil => intro c; simp [streams.collect]
  | cons d ds ih =>
      intro c
      by_cases h : c ≥ N
      · have h0 : (N - c).toNat = 0 := by omega
        simp [streams.collect, streams.applyOperations, streams.Op.apply, h,
          ih c, h0]
      · have h1 : (N - c).toNat = (N - (c + 1)).toNat + 1 := by omega
        simp [streams.collect, streams.applyOperations, streams.Op.apply, h,
          ih (c + 1), h1]

/-- Behind a `filter`, the `limit` counter advances only for elements the
filter lets through: `collect` keeps the first `(N - c)` elements
SATISFYING the predicate. -/
theorem collect_filter_limit_take {α κ : Type} [DecidableEq κ]
    (p : α → Bool) (N : Int) :
    ∀ (data : List α) (c : Int),
      (streams.collect data
          ([.filter p, .limit N c] : List (streams.Op α κ))).2 =
        (data.filter p).take (N - c).toNat := by
  intro data
  induction data with
  | nil => intro c; simp [streams.collect]
  | cons d ds ih =>
      intro c
      by_cases hp : p d
      · by_cases h : c ≥ N
        · have h0 : (N - c).toNat = 0 := by omega
          simp [streams.collect, streams.applyOperations, streams.Op.apply,
            hp, h, ih c, h0]
        · have h1 : (N - c).toNat = (N - (c + 1)).toNat + 1 := by omega
          simp [streams.collect, streams.applyOperations, streams.Op.apply,
            hp, h, ih (c + 1), h1]
      · simp [streams.collect, streams.applyOperations, streams.Op.apply,
          hp, ih c]

/-- C7 (confirmed): for every `n ≥ 0`, `Limit(n)` keeps exactly the first
`n` elements that reach it: behind `Filter(p)` the survivors are the
first `n` elements satisfying `p` (upstream rejections never reach the
limit counter), not survivors drawn from the first `n` source elements;
with no upstream operator it keeps the first `n` source elements. -/
theorem c7_limit_keeps_first_n_reaching {α : Type} (data : List α)
    (p : α → Bool) (n : Nat) :
    (streams.collect data
        ([.filter p, .limit (n : Int) 0] : List (streams.Op α Unit))).2 =
      (data.filter p).take n ∧
    (streams.collect data
        ([.limit (n : Int) 0] : List (streams.Op α Unit))).2 =
      data.take n := by
  have h1 := collect_filter_limit_take (κ := Unit) p (n : Int) data 0
  have h2 := collect_limit_take (κ := Unit) (n : Int) data 0
  have h3 : ((n : Int) - 0).toNat = n := by omega
  rw [h3] at h1 h2
  exact ⟨h1, h2⟩

/-- A `(· ≤ ·)`-chained list is bounded by its last element. -/
theorem chain'_le_getLast : ∀ (bounds : List Nat) (a L : Nat),
    List.Chain' (· ≤ ·) (a :: bounds) →
    (a :: bounds).getLast? = some L → a ≤ L := by
  intro bounds
  induction bounds with
  | nil =>
      intro a L _ hl
      simp at hl
      omega
  | cons b rest ih =>
      intro a L hc hl
      rw [List.chain'_cons] at hc
      rw [List.getLast?_cons_cons] at hl
      exact le_trans hc.1 (ih b L hc.2 hl)

/-- Concatenating the slices cut at a nondecreasing boundary list
`a :: bounds` ending at `L` gives back the slice of `data` from `a`
to `L`. -/
theorem flatten_partitionsOf {α : Type} (data : List α) :
    ∀ (bounds : List Nat) (a L : Nat),
      List.Chain' (· ≤ ·) (a :: bounds) →
      (a :: bounds).getLast? = some L →
      (streams.partitionsOf data (a :: bounds)).flatten =
        (data.drop a).take (L - a) := by
  intro bounds
  induction bounds with
  | nil =>
      intro a L _ hl
      simp at hl
      subst hl
      simp [streams.partitionsOf]
  | cons b rest ih =>
      intro a L hc hl
      rw [List.chain'_cons] at hc
      rw [List.getLast?_cons_cons] at hl
      have hab : a ≤ b := hc.1
      have hbL : b ≤ L := chain'_le_getLast rest b L hc.2 hl
      have hstep := ih b L hc.2 hl
      have hdrop : (data.drop a).drop (b - a) = data.drop b := by
        rw [List.drop_drop]
        congr 1
        omega
      have hsum : (b - a) + (L - b) = L - a := by omega
      calc (streams.partitionsOf data (a :: b :: rest)).flatten
          = (data.drop a).take (b - a) ++
              (streams.partitionsOf data (b :: rest)).flatten := by
            simp [streams.partitionsOf]
        _ = (data.drop a).take (b - a) ++
              ((data.drop a).drop (b - a)).take (L - b) := by
            rw [hstep, hdrop]
        _ = (data.drop a).take ((b - a) + (L - b)) := (List.take_add ..).symm
        _ = (data.drop a).take (L - a) := by rw [hsum]

/-- For `n ≠ 0` and `m ≥ 1` the boundary list is
`0 :: (i+1)·(n/m) for i < m-1` followed by `n`. -/
theorem subIntervals_structure (n m : Nat) (hm : 1 ≤ m) (hn : n ≠ 0) :
    streams.subIntervals n m =
      (0 :: (List.range (m - 1)).map (fun i => (i + 1) * (n / m))) ++ [n] := by
  obtain ⟨m', rfl⟩ : ∃ m', m = m' + 1 := ⟨m - 1, by omega⟩
  simp only [streams.subIntervals, hn, if_false, List.range_succ_eq_map]
  simp [List.map_map, Function.comp]

/-- The boundary list returned by `subIntervals` is nondecreasing. -/
theorem subIntervals_chain (n m : Nat) :
    List.Chain' (· ≤ ·) (streams.subIntervals n m) := by
  by_cases hn : n = 0
  · simp [streams.subIntervals, hn]
  · simp only [streams.subIntervals, hn, if_false]
    rw [List.chain'_append]
    refine ⟨?_, by simp, ?_⟩
    · refine List.Pairwise.chain' ?_
      refine List.Pairwise.map _ ?_ (List.pairwise_lt_range m)
      intro a b hab
      exact Nat.mul_le_mul_right _ (Nat.le_of_lt hab)
    · intro x hx y hy
      simp at hy
      subst hy
      have hxmem : x ∈ (List.range m).map (fun i => i * (n / m)) := by
        obtain ⟨hne, rfl⟩ := List.mem_getLast?_eq_getLast hx
        exact List.getLast_mem hne
      simp only [List.mem_map, List.mem_range] at hxmem
      obtain ⟨i, hi, rfl⟩ := hxmem
      calc i * (n / m) ≤ m * (n / m) := Nat.mul_le_mul_right _ (Nat.le_of_lt hi)
        _ = n / m * m := Nat.mul_comm ..
        _ ≤ n := Nat.div_mul_le_self n m

/-- C10 (confirmed): for `m ≥ 1` the boundary list of `subIntervals n m`
is empty when `n = 0`, otherwise nondecreasing, starting at `0` and
ending at `n`; consequently the consecutive slices
`data[b i : b (i+1)]` handed to the parallel workers are contiguous,
pairwise disjoint and jointly cover the data — their concatenation is
exactly `data` (also when `m` exceeds `n`). -/
theorem c10_subIntervals_partition_data {α : Type} (n m : Nat)
    (data : List α) (hm : 1 ≤ m) (hdata : data.length = n) :
    streams.subIntervals 0 m = [] ∧
    List.Chain' (· ≤ ·) (streams.subIntervals n m) ∧
    (n ≠ 0 → (streams.subIntervals n m).head? = some 0 ∧
      (streams.subIntervals n m).getLast? = some n) ∧
    (streams.partitionsOf data (streams.subIntervals n m)).flatten = data := by
  refine ⟨by simp [streams.subIntervals], subIntervals_chain n m, ?_, ?_⟩
  · intro hn
    have hs := subIntervals_structure n m hm hn
    constructor
    · rw [hs]; rfl
    · rw [hs]; exact List.getLast?_concat _
  · by_cases hn : n = 0
    · subst hn
      have hnil : data = [] := List.length_eq_zero.mp hdata
      subst hnil
      simp [streams.subIntervals, streams.partitionsOf]
    · have hs := subIntervals_structure n m hm hn
      have hcons : streams.subIntervals n m =
          0 :: ((List.range (m - 1)).map (fun i => (i + 1) * (n / m)) ++ [n]) := by
        rw [hs]; rfl
      have hchain := subIntervals_chain n m
      have hlast : (streams.subIntervals n m).getLast? = some n := by
        rw [hs]; exact List.getLast?_concat _
      rw [hcons] at hchain hlast
      rw [hcons]
      rw [flatten_partitionsOf data _ 0 n hchain hlast]
      simp [hdata.symm]

/-- C10 witness: the scenario of length 7 with 3 sub-intervals — the
boundaries are `[0, 2, 4, 7]` and the three slices concatenate back to
the source. -/
theorem c10_subIntervals_partition_data_witness :
    streams.subIntervals 7 3 = [0, 2, 4, 7] ∧
    (streams.partitionsOf [1, 2, 3, 4, 5, 6, 7]
      (streams.subIntervals 7 3)).flatten = ([1, 2, 3, 4, 5, 6, 7] : List Int) :=
  ⟨by decide,
   (c10_subIntervals_partition_data 7 3 [1, 2, 3, 4, 5, 6, 7]
      (by decide) rfl).2.2.2⟩

/-- C8 as amended (corrected): every INTERMEDIATE operation of
`stream.go` — `Filter`, `Map`, `Limit` (with a non-negative count),
`Skip`, `Distinct`, `Peek` — marks the receiver closed when it derives
the child stream, so derivation through these operations keeps at most
one live stream per lineage branch; `Parallelize` is the exception: it
returns a new stream over the same supplier while leaving the receiver
open. -/
theorem c8_intermediate_ops_close_receiver {α κ : Type} [DecidableEq κ]
    (s : streams.GoStream α κ) (p : α → Bool) (f : α → α) (hashf : α → κ)
    (n m : Int) (hterm : s.terminated = false) (hclosed : s.closed = false)
    (hn : 0 ≤ n) :
    (s.Filter p).map (fun r => r.1.closed) = .ok true ∧
    (s.Map f).map (fun r => r.1.closed) = .ok true ∧
    (s.Limit n).map (fun r => r.1.closed) = .ok true ∧
    (s.Skip m).map (fun r => r.1.closed) = .ok true ∧
    (s.Distinct hashf).map (fun r => r.1.closed) = .ok true ∧
    (s.Peek).map (fun r => r.1.closed) = .ok true := by
  have hv : s.valid = none := by
    simp [streams.GoStream.valid, hterm, hclosed]
  have hn2 : ¬ n < 0 := by omega
  exact ⟨by simp [streams.GoStream.Filter, hv, streams.new, Except.map],
    by simp [streams.GoStream.Map, hv, streams.new, Except.map],
    by simp [streams.GoStream.Limit, hv, streams.new, Except.map, hn2],
    by simp [streams.GoStream.Skip, hv, streams.new, Except.map],
    by simp [streams.GoStream.Distinct, hv, streams.new, Except.map],
    by simp [streams.GoStream.Peek, hv, streams.new, Except.map]⟩

/-- C8 witness: the amended statement instantiated at the open stream
over `[1, 2, 3]`. -/
theorem c8_intermediate_ops_close_receiver_witness :
    (openStreamEx.Filter (fun x => x > 0)).map (fun r => r.1.closed) =
      .ok true ∧
    (openStreamEx.Skip 2).map (fun r => r.1.closed) = .ok true :=
  ⟨(c8_intermediate_ops_close_receiver openStreamEx (fun x => x > 0) id
      (fun x => x) 0 2 rfl rfl (by decide)).1,
   (c8_intermediate_ops_close_receiver openStreamEx (fun x => x > 0) id
      (fun x => x) 0 2 rfl rfl (by decide)).2.2.2.1⟩

/-- C9 (code bug): the concurrent constructors of the constructor file
perform no validation at all — `ConcurrentFromSlice` with concurrency
`-2` and `ConcurrentFromCollection` with concurrency `0` both return a
stream instead of failing with `IllegalConfig`; and `stream.Parallelize`
rejects concurrency `1` with `IllegalConfig` although the claim says any
concurrency `≥ 1` succeeds. -/
theorem c9_concurrency_config_unvalidated :
    (concstream.ConcurrentFromSlice ([1, 2] : List Int) (-2) 2).map
        (fun s => s.concurrency) = .ok (-2) ∧
    (concstream.ConcurrentFromCollection ([1, 2] : List Int) 0 2).map
        (fun s => s.concurrency) = .ok 0 ∧
    openStreamEx.Parallelize 1 = .error .illegalConfig :=
  ⟨rfl, rfl, rfl⟩
